import Mathlib

/-!
Verification of the ignition_tools_front repository.

The Frontend Code Intelligence Framework (Syntax Model, Analyzer, Optimizer,
Refactorer, Orchestration Service) is described in the repository's
documentation but its implementation files are not present in the provided
sources; those components are modelled from the specification.  The AuthGuard
component and the useNeo4j hook are embedded directly from their TypeScript
sources.
-/

set_option maxRecDepth 4096

namespace IgnTools

/-- A byte-offset range inside a source text. -/
structure Span where
  start : Nat
  stop : Nat
deriving DecidableEq, Repr

/-- Modelled from the spec: the four language dialects accepted by `parse`
(TS/TSX/JS/JSX). -/
inductive Dialect
  | ts | tsx | js | jsx
deriving DecidableEq, Repr

/-- Modelled from the spec: the kind tag carried by every syntax node
(function declaration, arrow function, JSX element, import statement,
call expression, etc.). -/
inductive NodeKind
  | program
  | importK
  | binding
  | funcDecl
  | param
  | block
  | varDecl
  | assign
  | ifK
  | whileK
  | tryK
  | catchClause
  | switchK
  | caseK
  | defaultK
  | returnK
  | exprStmt
  | callK
  | identK
  | numK
  | strK
  | ternaryK
  | andK
  | orK
  | arrowK
  | thisK
  | jsxK
deriving DecidableEq, Repr

/-- Modelled from the spec: a typed node in the AST with a `kind` tag, a span,
and children owned by the parent.  `label` carries the node's payload (a
binding name, module path, number literal text, ...) and `flag` carries the
node's boolean attribute (`isExported` for declarations, `isTypeOnly`
for imports). -/
inductive SyntaxNode where
  | mk (kind : NodeKind) (label : String) (flag : Bool) (span : Span)
      (children : List SyntaxNode)
deriving Repr

def SyntaxNode.kind : SyntaxNode → NodeKind
  | .mk k _ _ _ _ => k

def SyntaxNode.label : SyntaxNode → String
  | .mk _ l _ _ _ => l

def SyntaxNode.flag : SyntaxNode → Bool
  | .mk _ _ f _ _ => f

def SyntaxNode.span : SyntaxNode → Span
  | .mk _ _ _ sp _ => sp

def SyntaxNode.children : SyntaxNode → List SyntaxNode
  | .mk _ _ _ _ cs => cs

mutual
/-- Preorder list of (kind, span) pairs of a node: the structural shape the
determinism property compares.  Defined mutually with its list version. -/
def shapeNode : SyntaxNode → List (NodeKind × Span)
  | .mk k _ _ sp cs => (k, sp) :: shapeList cs

def shapeList : List SyntaxNode → List (NodeKind × Span)
  | [] => []
  | n :: ns => shapeNode n ++ shapeList ns
end

/-- Modelled from the spec: `ParseError` carries line/column of the first
failure. -/
structure ParseError where
  line : Nat
  column : Nat
  message : String
deriving DecidableEq, Repr

/-- Counts lines and columns over a prefix of characters. -/
def lineColGo : List Char → Nat → Nat → Nat × Nat
  | [], line, col => (line, col)
  | c :: cs, line, col =>
      if c = '\n' then lineColGo cs (line + 1) 0 else lineColGo cs line (col + 1)

/-- Line (1-based) and column (0-based) of a character offset in a text,
used to fill `ParseError`. -/
def lineColOf (s : String) (offset : Nat) : Nat × Nat :=
  lineColGo (s.toList.take offset) 1 0

/-- Token classes produced by the lexical scanner. -/
inductive TokKind
  | identT | numberT | strT | punctT
deriving DecidableEq, Repr

/-- A lexical token with its character-offset span. -/
structure Token where
  tkind : TokKind
  text : String
  pos : Nat
  stop : Nat
deriving DecidableEq, Repr

def isIdentStart (c : Char) : Bool :=
  c.isAlpha || c = '_' || c = '$'

def isIdentChar (c : Char) : Bool :=
  c.isAlphanum || c = '_' || c = '$'

def isPunctChar (c : Char) : Bool :=
  c = '{' || c = '}' || c = '(' || c = ')' || c = ';' || c = ',' ||
  c = '?' || c = ':' || c = '=' || c = '&' || c = '|' || c = '<' ||
  c = '>' || c = '/'

/-- One scanning step: consumes at least one character, yielding either a
token (or none for whitespace) and the rest of the input with the offset
after the consumed prefix. -/
def scanStep (src : String) (pos : Nat) :
    List Char → Except ParseError (Option Token × Nat × List Char)
  | [] => .ok (none, pos, [])
  | c :: cs =>
    if c = ' ' || c = '\n' || c = '\t' || c = '\r' then
      .ok (none, pos + 1, cs)
    else if isIdentStart c then
      let body := cs.takeWhile isIdentChar
      let rest := cs.dropWhile isIdentChar
      let text := String.mk (c :: body)
      let stop := pos + 1 + body.length
      .ok (some ⟨.identT, text, pos, stop⟩, stop, rest)
    else if c.isDigit then
      let body := cs.takeWhile Char.isDigit
      let rest := cs.dropWhile Char.isDigit
      let text := String.mk (c :: body)
      let stop := pos + 1 + body.length
      .ok (some ⟨.numberT, text, pos, stop⟩, stop, rest)
    else if c = '"' || c = '\'' then
      let body := cs.takeWhile (fun d => d ≠ c)
      let rest := cs.dropWhile (fun d => d ≠ c)
      match rest with
      | [] =>
          let (line, col) := lineColOf src pos
          .error ⟨line, col, "unterminated string literal"⟩
      | _ :: rest' =>
          let stop := pos + body.length + 2
          .ok (some ⟨.strT, String.mk body, pos, stop⟩, stop, rest')
    else if c = '&' then
      match cs with
      | '&' :: rest => .ok (some ⟨.punctT, "&&", pos, pos + 2⟩, pos + 2, rest)
      | _ =>
          let (line, col) := lineColOf src pos
          .error ⟨line, col, "expected &&"⟩
    else if c = '|' then
      match cs with
      | '|' :: rest => .ok (some ⟨.punctT, "||", pos, pos + 2⟩, pos + 2, rest)
      | _ =>
          let (line, col) := lineColOf src pos
          .error ⟨line, col, "expected ||"⟩
    else if c = '=' then
      match cs with
      | '>' :: rest => .ok (some ⟨.punctT, "=>", pos, pos + 2⟩, pos + 2, rest)
      | _ => .ok (some ⟨.punctT, "=", pos, pos + 1⟩, pos + 1, cs)
    else if isPunctChar c then
      .ok (some ⟨.punctT, String.mk [c], pos, pos + 1⟩, pos + 1, cs)
    else
      let (line, col) := lineColOf src pos
      .error ⟨line, col, "unexpected character"⟩

/-- Fuel-driven scanning loop; the fuel bounds the number of steps, and
`tokenize` supplies enough for the whole input. -/
def scanAll (src : String) : Nat → Nat → List Char →
    Except ParseError (List Token)
  | 0, pos, _ =>
      let (line, col) := lineColOf src pos
      .error ⟨line, col, "scanner fuel exhausted"⟩
  | _ + 1, _, [] => .ok []
  | fuel + 1, pos, cs =>
      match scanStep src pos cs with
      | .error e => .error e
      | .ok (tok, pos', rest) =>
          match scanAll src fuel pos' rest with
          | .error e => .error e
          | .ok toks =>
              match tok with
              | none => .ok toks
              | some t => .ok (t :: toks)

/-- Lexical scanning of a source text into tokens. -/
def tokenize (src : String) : Except ParseError (List Token) :=
  scanAll src (src.length + 1) 0 src.toList

abbrev Toks := List Token

def isPunct (p : String) (t : Token) : Bool :=
  t.tkind = TokKind.punctT && t.text = p

def isKw (k : String) (t : Token) : Bool :=
  t.tkind = TokKind.identT && t.text = k

def expectP (p : String) : Toks → Option (Token × Toks)
  | t :: ts => if isPunct p t then some (t, ts) else none
  | [] => none

def expectIdent : Toks → Option (Token × Toks)
  | t :: ts => if t.tkind = TokKind.identT then some (t, ts) else none
  | [] => none

def expectStr : Toks → Option (Token × Toks)
  | t :: ts => if t.tkind = TokKind.strT then some (t, ts) else none
  | [] => none

def expectKw (k : String) : Toks → Option (Token × Toks)
  | t :: ts => if isKw k t then some (t, ts) else none
  | [] => none

def peekP (p : String) : Toks → Bool
  | t :: _ => isPunct p t
  | [] => false

def peekKw (k : String) : Toks → Bool
  | t :: _ => isKw k t
  | [] => false

/-- Parses a comma-separated identifier list (function parameters),
stopping before the closing parenthesis. -/
def parseParams : Nat → Toks → Option (List SyntaxNode × Toks)
  | 0, _ => none
  | fuel + 1, ts =>
    if peekP ")" ts then some ([], ts)
    else
      match expectIdent ts with
      | none => none
      | some (t, ts1) =>
          let node := SyntaxNode.mk .param t.text false ⟨t.pos, t.stop⟩ []
          if peekP "," ts1 then
            match ts1 with
            | _ :: ts2 =>
                match parseParams fuel ts2 with
                | some (ps, ts3) => some (node :: ps, ts3)
                | none => none
            | [] => none
          else some ([node], ts1)

/-- Parses a comma-separated named-import binding list, stopping before the
closing brace. -/
def parseBindings : Nat → Toks → Option (List SyntaxNode × Toks)
  | 0, _ => none
  | fuel + 1, ts =>
    if peekP "\x7d" ts then some ([], ts)
    else
      match expectIdent ts with
      | none => none
      | some (t, ts1) =>
          let node := SyntaxNode.mk .binding t.text false ⟨t.pos, t.stop⟩ []
          if peekP "," ts1 then
            match ts1 with
            | _ :: ts2 =>
                match parseBindings fuel ts2 with
                | some (bs, ts3) => some (node :: bs, ts3)
                | none => none
            | [] => none
          else some ([node], ts1)

/-- Parses an import statement: `import "m";`, `import { a, b } from "m";`,
or `import type { a } from "m";`. -/
def parseImport : Toks → Option (SyntaxNode × Toks)
  | impTok :: rest =>
    match expectStr rest with
    | some (pathTok, ts1) =>
        match expectP ";" ts1 with
        | some (semi, ts2) =>
            some (.mk .importK pathTok.text false ⟨impTok.pos, semi.stop⟩ [], ts2)
        | none => none
    | none =>
        let (typeOnly, rest1) :=
          match rest with
          | t :: u :: more =>
              if isKw "type" t && isPunct "\x7b" u then (true, u :: more)
              else (false, rest)
          | _ => (false, rest)
        match expectP "\x7b" rest1 with
        | none => none
        | some (_, ts1) =>
            match parseBindings (ts1.length + 1) ts1 with
            | none => none
            | some (bs, ts2) =>
                match expectP "\x7d" ts2 with
                | none => none
                | some (_, ts3) =>
                    match expectKw "from" ts3 with
                    | none => none
                    | some (_, ts4) =>
                        match expectStr ts4 with
                        | none => none
                        | some (pathTok, ts5) =>
                            match expectP ";" ts5 with
                            | none => none
                            | some (semi, ts6) =>
                                some (.mk .importK pathTok.text typeOnly
                                  ⟨impTok.pos, semi.stop⟩ bs, ts6)
  | [] => none

mutual

def parseStmt : Nat → Toks → Option (SyntaxNode × Toks)
  | 0, _ => none
  | fuel + 1, ts =>
    match ts with
    | [] => none
    | t :: rest =>
      if isKw "import" t then parseImport ts
      else if isKw "export" t then
        match parseStmt fuel rest with
        | some (.mk .funcDecl n _ sp cs, ts') =>
            some (.mk .funcDecl n true ⟨t.pos, sp.stop⟩ cs, ts')
        | some (.mk .varDecl n _ sp cs, ts') =>
            some (.mk .varDecl n true ⟨t.pos, sp.stop⟩ cs, ts')
        | _ => none
      else if isKw "function" t then parseFunction fuel ts
      else if isKw "const" t || isKw "let" t || isKw "var" t then
        parseVarDecl fuel ts
      else if isKw "if" t then parseIf fuel ts
      else if isKw "while" t then parseWhile fuel ts
      else if isKw "try" t then parseTry fuel ts
      else if isKw "switch" t then parseSwitch fuel ts
      else if isKw "return" t then parseReturn fuel ts
      else if isPunct "\x7b" t then parseBlock fuel ts
      else
        match ts with
        | a :: eq :: more =>
          if a.tkind = TokKind.identT && isPunct "=" eq then
            match parseExpr fuel more with
            | some (v, ts1) =>
                match expectP ";" ts1 with
                | some (semi, ts2) =>
                    some (.mk .assign a.text false ⟨a.pos, semi.stop⟩ [v], ts2)
                | none => none
            | none => none
          else parseExprStmt fuel ts
        | _ => parseExprStmt fuel ts

def parseFunction : Nat → Toks → Option (SyntaxNode × Toks)
  | 0, _ => none
  | fuel + 1, ts =>
    match ts with
    | fnTok :: rest =>
      match expectIdent rest with
      | none => none
      | some (nameTok, ts1) =>
          match expectP "(" ts1 with
          | none => none
          | some (_, ts2) =>
              match parseParams (ts2.length + 1) ts2 with
              | none => none
              | some (ps, ts3) =>
                  match expectP ")" ts3 with
                  | none => none
                  | some (_, ts4) =>
                      match parseBlock fuel ts4 with
                      | none => none
                      | some (body, ts5) =>
                          some (.mk .funcDecl nameTok.text false
                            ⟨fnTok.pos, body.span.stop⟩ (ps ++ [body]), ts5)
    | [] => none

def parseVarDecl : Nat → Toks → Option (SyntaxNode × Toks)
  | 0, _ => none
  | fuel + 1, ts =>
    match ts with
    | kwTok :: rest =>
      match expectIdent rest with
      | none => none
      | some (nameTok, ts1) =>
          match expectP "=" ts1 with
          | none => none
          | some (_, ts2) =>
              match parseExpr fuel ts2 with
              | none => none
              | some (v, ts3) =>
                  match expectP ";" ts3 with
                  | none => none
                  | some (semi, ts4) =>
                      some (.mk .varDecl nameTok.text false
                        ⟨kwTok.pos, semi.stop⟩ [v], ts4)
    | [] => none

def parseIf : Nat → Toks → Option (SyntaxNode × Toks)
  | 0, _ => none
  | fuel + 1, ts =>
    match ts with
    | ifTok :: rest =>
      match expectP "(" rest with
      | none => none
      | some (_, ts1) =>
          match parseExpr fuel ts1 with
          | none => none
          | some (cond, ts2) =>
              match expectP ")" ts2 with
              | none => none
              | some (_, ts3) =>
                  match parseStmt fuel ts3 with
                  | none => none
                  | some (thn, ts4) =>
                      if peekKw "else" ts4 then
                        match ts4 with
                        | _ :: ts5 =>
                            match parseStmt fuel ts5 with
                            | none => none
                            | some (els, ts6) =>
                                some (.mk .ifK "" false
                                  ⟨ifTok.pos, els.span.stop⟩ [cond, thn, els], ts6)
                        | [] => none
                      else
                        some (.mk .ifK "" false
                          ⟨ifTok.pos, thn.span.stop⟩ [cond, thn], ts4)
    | [] => none

def parseWhile : Nat → Toks → Option (SyntaxNode × Toks)
  | 0, _ => none
  | fuel + 1, ts =>
    match ts with
    | whTok :: rest =>
      match expectP "(" rest with
      | none => none
      | some (_, ts1) =>
          match parseExpr fuel ts1 with
          | none => none
          | some (cond, ts2) =>
              match expectP ")" ts2 with
              | none => none
              | some (_, ts3) =>
                  match parseStmt fuel ts3 with
                  | none => none
                  | some (body, ts4) =>
                      some (.mk .whileK "" false
                        ⟨whTok.pos, body.span.stop⟩ [cond, body], ts4)
    | [] => none

def parseTry : Nat → Toks → Option (SyntaxNode × Toks)
  | 0, _ => none
  | fuel + 1, ts =>
    match ts with
    | tryTok :: rest =>
      match parseBlock fuel rest with
      | none => none
      | some (b1, ts1) =>
          match expectKw "catch" ts1 with
          | none => none
          | some (catchTok, ts2) =>
              match expectP "(" ts2 with
              | none => none
              | some (_, ts3) =>
                  match expectIdent ts3 with
                  | none => none
                  | some (pTok, ts4) =>
                      match expectP ")" ts4 with
                      | none => none
                      | some (_, ts5) =>
                          match parseBlock fuel ts5 with
                          | none => none
                          | some (b2, ts6) =>
                              let catchNode := SyntaxNode.mk .catchClause pTok.text
                                false ⟨catchTok.pos, b2.span.stop⟩ [b2]
                              some (.mk .tryK "" false
                                ⟨tryTok.pos, b2.span.stop⟩ [b1, catchNode], ts6)
    | [] => none

def parseSwitch : Nat → Toks → Option (SyntaxNode × Toks)
  | 0, _ => none
  | fuel + 1, ts =>
    match ts with
    | swTok :: rest =>
      match expectP "(" rest with
      | none => none
      | some (_, ts1) =>
          match parseExpr fuel ts1 with
          | none => none
          | some (scrut, ts2) =>
              match expectP ")" ts2 with
              | none => none
              | some (_, ts3) =>
                  match expectP "\x7b" ts3 with
                  | none => none
                  | some (_, ts4) =>
                      match parseCases fuel ts4 with
                      | none => none
                      | some (cs, ts5) =>
                          match expectP "\x7d" ts5 with
                          | none => none
                          | some (rb, ts6) =>
                              some (.mk .switchK "" false
                                ⟨swTok.pos, rb.stop⟩ (scrut :: cs), ts6)
    | [] => none

def parseCases : Nat → Toks → Option (List SyntaxNode × Toks)
  | 0, _ => none
  | fuel + 1, ts =>
    if peekKw "case" ts then
      match ts with
      | caseTok :: rest =>
        match parseExpr fuel rest with
        | none => none
        | some (test, ts1) =>
            match expectP ":" ts1 with
            | none => none
            | some (colon, ts2) =>
                match parseCaseBody fuel ts2 with
                | none => none
                | some (body, ts3) =>
                    let stop := match body.getLast? with
                      | some s => s.span.stop
                      | none => colon.stop
                    let node := SyntaxNode.mk .caseK "" false
                      ⟨caseTok.pos, stop⟩ (test :: body)
                    match parseCases fuel ts3 with
                    | none => none
                    | some (more, ts4) => some (node :: more, ts4)
      | [] => none
    else if peekKw "default" ts then
      match ts with
      | defTok :: rest =>
        match expectP ":" rest with
        | none => none
        | some (colon, ts1) =>
            match parseCaseBody fuel ts1 with
            | none => none
            | some (body, ts2) =>
                let stop := match body.getLast? with
                  | some s => s.span.stop
                  | none => colon.stop
                let node := SyntaxNode.mk .defaultK "" false
                  ⟨defTok.pos, stop⟩ body
                match parseCases fuel ts2 with
                | none => none
                | some (more, ts3) => some (node :: more, ts3)
      | [] => none
    else some ([], ts)

def parseCaseBody : Nat → Toks → Option (List SyntaxNode × Toks)
  | 0, _ => none
  | fuel + 1, ts =>
    if peekP "\x7d" ts || peekKw "case" ts || peekKw "default" ts then some ([], ts)
    else
      match ts with
      | [] => some ([], [])
      | _ =>
        match parseStmt fuel ts with
        | none => none
        | some (s, ts1) =>
            match parseCaseBody fuel ts1 with
            | none => none
            | some (more, ts2) => some (s :: more, ts2)

def parseReturn : Nat → Toks → Option (SyntaxNode × Toks)
  | 0, _ => none
  | fuel + 1, ts =>
    match ts with
    | retTok :: rest =>
      match expectP ";" rest with
      | some (semi, ts1) =>
          some (.mk .returnK "" false ⟨retTok.pos, semi.stop⟩ [], ts1)
      | none =>
          match parseExpr fuel rest with
          | none => none
          | some (v, ts1) =>
              match expectP ";" ts1 with
              | none => none
              | some (semi, ts2) =>
                  some (.mk .returnK "" false ⟨retTok.pos, semi.stop⟩ [v], ts2)
    | [] => none

def parseExprStmt : Nat → Toks → Option (SyntaxNode × Toks)
  | 0, _ => none
  | fuel + 1, ts =>
    match parseExpr fuel ts with
    | none => none
    | some (e, ts1) =>
        match expectP ";" ts1 with
        | none => none
        | some (semi, ts2) =>
            some (.mk .exprStmt "" false ⟨e.span.start, semi.stop⟩ [e], ts2)

def parseBlock : Nat → Toks → Option (SyntaxNode × Toks)
  | 0, _ => none
  | fuel + 1, ts =>
    match expectP "\x7b" ts with
    | none => none
    | some (lb, ts1) =>
        match parseStmtList fuel ts1 with
        | none => none
        | some (ss, ts2) =>
            match expectP "\x7d" ts2 with
            | none => none
            | some (rb, ts3) =>
                some (.mk .block "" false ⟨lb.pos, rb.stop⟩ ss, ts3)

def parseStmtList : Nat → Toks → Option (List SyntaxNode × Toks)
  | 0, _ => none
  | fuel + 1, ts =>
    if peekP "\x7d" ts then some ([], ts)
    else
      match ts with
      | [] => some ([], [])
      | _ =>
        match parseStmt fuel ts with
        | none => none
        | some (s, ts1) =>
            match parseStmtList fuel ts1 with
            | none => none
            | some (more, ts2) => some (s :: more, ts2)

def parseExpr : Nat → Toks → Option (SyntaxNode × Toks)
  | 0, _ => none
  | fuel + 1, ts =>
    match parseOr fuel ts with
    | none => none
    | some (l, ts1) =>
        if peekP "?" ts1 then
          match ts1 with
          | _ :: ts2 =>
              match parseExpr fuel ts2 with
              | none => none
              | some (thn, ts3) =>
                  match expectP ":" ts3 with
                  | none => none
                  | some (_, ts4) =>
                      match parseExpr fuel ts4 with
                      | none => none
                      | some (els, ts5) =>
                          some (.mk .ternaryK "" false
                            ⟨l.span.start, els.span.stop⟩ [l, thn, els], ts5)
          | [] => none
        else some (l, ts1)

def parseOr : Nat → Toks → Option (SyntaxNode × Toks)
  | 0, _ => none
  | fuel + 1, ts =>
    match parseAnd fuel ts with
    | none => none
    | some (l, ts1) => parseOrRest fuel l ts1

def parseOrRest : Nat → SyntaxNode → Toks → Option (SyntaxNode × Toks)
  | 0, _, _ => none
  | fuel + 1, l, ts =>
    if peekP "||" ts then
      match ts with
      | _ :: ts1 =>
          match parseAnd fuel ts1 with
          | none => none
          | some (r, ts2) =>
              parseOrRest fuel
                (.mk .orK "" false ⟨l.span.start, r.span.stop⟩ [l, r]) ts2
      | [] => none
    else some (l, ts)

def parseAnd : Nat → Toks → Option (SyntaxNode × Toks)
  | 0, _ => none
  | fuel + 1, ts =>
    match parsePrimary fuel ts with
    | none => none
    | some (l, ts1) => parseAndRest fuel l ts1

def parseAndRest : Nat → SyntaxNode → Toks → Option (SyntaxNode × Toks)
  | 0, _, _ => none
  | fuel + 1, l, ts =>
    if peekP "&&" ts then
      match ts with
      | _ :: ts1 =>
          match parsePrimary fuel ts1 with
          | none => none
          | some (r, ts2) =>
              parseAndRest fuel
                (.mk .andK "" false ⟨l.span.start, r.span.stop⟩ [l, r]) ts2
      | [] => none
    else some (l, ts)

def parsePrimary : Nat → Toks → Option (SyntaxNode × Toks)
  | 0, _ => none
  | fuel + 1, ts =>
    match ts with
    | [] => none
    | t :: rest =>
      if t.tkind = TokKind.numberT then
        some (.mk .numK t.text false ⟨t.pos, t.stop⟩ [], rest)
      else if t.tkind = TokKind.strT then
        some (.mk .strK t.text false ⟨t.pos, t.stop⟩ [], rest)
      else if isKw "this" t then
        some (.mk .thisK "" false ⟨t.pos, t.stop⟩ [], rest)
      else if t.tkind = TokKind.identT then
        if peekP "(" rest then
          match rest with
          | _ :: ts1 =>
              match parseArgs fuel ts1 with
              | none => none
              | some (args, ts2) =>
                  match expectP ")" ts2 with
                  | none => none
                  | some (rb, ts3) =>
                      some (.mk .callK t.text false ⟨t.pos, rb.stop⟩ args, ts3)
          | [] => none
        else some (.mk .identK t.text false ⟨t.pos, t.stop⟩ [], rest)
      else if isPunct "(" t then
        match tryParseArrow fuel ts with
        | some r => some r
        | none =>
            match parseExpr fuel rest with
            | none => none
            | some (e, ts1) =>
                match expectP ")" ts1 with
                | none => none
                | some (_, ts2) => some (e, ts2)
      else if isPunct "<" t then
        match rest with
        | tag :: slash :: gt :: ts1 =>
            if tag.tkind = TokKind.identT && isPunct "/" slash && isPunct ">" gt then
              some (.mk .jsxK tag.text false ⟨t.pos, gt.stop⟩ [], ts1)
            else none
        | _ => none
      else none

def tryParseArrow : Nat → Toks → Option (SyntaxNode × Toks)
  | 0, _ => none
  | fuel + 1, ts =>
    match expectP "(" ts with
    | none => none
    | some (lp, ts1) =>
        match parseParams (ts1.length + 1) ts1 with
        | none => none
        | some (ps, ts2) =>
            match expectP ")" ts2 with
            | none => none
            | some (_, ts3) =>
                match expectP "=>" ts3 with
                | none => none
                | some (_, ts4) =>
                    if peekP "\x7b" ts4 then
                      match parseBlock fuel ts4 with
                      | none => none
                      | some (body, ts5) =>
                          some (.mk .arrowK "" false
                            ⟨lp.pos, body.span.stop⟩ (ps ++ [body]), ts5)
                    else
                      match parseExpr fuel ts4 with
                      | none => none
                      | some (body, ts5) =>
                          some (.mk .arrowK "" false
                            ⟨lp.pos, body.span.stop⟩ (ps ++ [body]), ts5)

def parseArgs : Nat → Toks → Option (List SyntaxNode × Toks)
  | 0, _ => none
  | fuel + 1, ts =>
    if peekP ")" ts then some ([], ts)
    else
      match parseExpr fuel ts with
      | none => none
      | some (e, ts1) =>
          if peekP "," ts1 then
            match ts1 with
            | _ :: ts2 =>
                match parseArgs fuel ts2 with
                | none => none
                | some (es, ts3) => some (e :: es, ts3)
            | [] => none
          else some ([e], ts1)

end

/-- Parses statements greedily from the token stream, returning the parsed
prefix and any leftover tokens at the first statement that fails. -/
def parseProgramGreedy : Nat → Toks → List SyntaxNode × Toks
  | 0, ts => ([], ts)
  | fuel + 1, ts =>
    match ts with
    | [] => ([], [])
    | _ =>
      match parseStmt fuel ts with
      | none => ([], ts)
      | some (s, ts1) =>
          let (more, ts2) := parseProgramGreedy fuel ts1
          (s :: more, ts2)

/-- Modelled from the spec: `parse(sourceText, dialect) -> AST | ParseError`,
the Syntax Model entry point of the Code Intelligence core (the core's
implementation is absent from the provided sources).  The dialect selects the
accepted grammar family; the modelled grammar subset is shared by all four
dialects. -/
def parse (src : String) (_d : Dialect) : Except ParseError SyntaxNode :=
  match tokenize src with
  | .error e => .error e
  | .ok toks =>
      match parseProgramGreedy ((toks.length + 1) * 10) toks with
      | (stmts, []) => .ok (.mk .program "" false ⟨0, src.length⟩ stmts)
      | (_, t :: _) =>
          let (line, col) := lineColOf src t.pos
          .error ⟨line, col, "unexpected token"⟩

/-- Modelled from the spec: decision-point kinds counted by the cyclomatic
complexity metric (`if`, `else if` appears as a nested `if`, ternary, `case`,
logical short-circuit branches, `catch`, loop constructs). -/
def isDecisionKind : NodeKind → Bool
  | .ifK => true
  | .ternaryK => true
  | .caseK => true
  | .andK => true
  | .orK => true
  | .catchClause => true
  | .whileK => true
  | _ => false

mutual
/-- Number of decision points in a subtree. -/
def countDecisionsNode : SyntaxNode → Nat
  | .mk k _ _ _ cs => (if isDecisionKind k then 1 else 0) + countDecisionsList cs

def countDecisionsList : List SyntaxNode → Nat
  | [] => 0
  | n :: ns => countDecisionsNode n + countDecisionsList ns
end

/-- Per-function entry of an AnalysisResult. -/
structure FunctionInfo where
  name : String
  span : Span
  cyclomaticComplexity : Nat
  parameterCount : Nat
  isExported : Bool
deriving DecidableEq, Repr

/-- Per-component entry of an AnalysisResult. -/
structure ComponentInfo where
  name : String
  span : Span
  hooksUsed : List String
  propsShape : List String
  hasMemoization : Bool
deriving DecidableEq, Repr

/-- Import/export edge entry of an AnalysisResult. -/
structure ImportInfo where
  modulePath : String
  bindingNames : List String
  isTypeOnly : Bool
deriving DecidableEq, Repr

inductive Severity
  | info | warning | critical
deriving DecidableEq, Repr

inductive PatternClass
  | antiPattern | bestPractice
deriving DecidableEq, Repr

/-- Detected pattern entry of an AnalysisResult. -/
structure PatternInfo where
  pkind : PatternClass
  span : Span
  message : String
  severity : Severity
deriving DecidableEq, Repr

/-- File-level metrics of an AnalysisResult. -/
structure Metrics where
  lineCount : Nat
  functionCount : Nat
  averageComplexity : Nat
  maxComplexity : Nat
deriving DecidableEq, Repr

/-- Modelled from the spec: the aggregate computed per SourceUnit. -/
structure AnalysisResult where
  metrics : Metrics
  functions : List FunctionInfo
  components : List ComponentInfo
  imports : List ImportInfo
  exports : List ImportInfo
  patterns : List PatternInfo
deriving DecidableEq, Repr

/-- Modelled from the spec: `AnalysisError{reason, details}`. -/
structure AnalysisError where
  reason : String
  details : String
deriving DecidableEq, Repr

/-- Modelled from the spec: a SourceUnit is a file path plus raw text and
language dialect. -/
structure SourceUnit where
  filePath : String
  text : String
  dialect : Dialect
deriving DecidableEq, Repr

/-- Modelled from the spec: Analyzer options, each toggling whether the
corresponding section is populated. -/
structure AnalyzeOptions where
  includeMetrics : Bool := true
  includePatterns : Bool := true
  includeSuggestions : Bool := true
deriving DecidableEq, Repr

def paramNames (cs : List SyntaxNode) : List String :=
  (cs.filter (fun c => c.kind = NodeKind.param)).map SyntaxNode.label

mutual
/-- Collects the reported functions of a subtree: function declarations and
arrow functions bound by a variable declaration, each with cyclomatic
complexity 1 + the decision points of its body subtree. -/
def collectFnsNode : SyntaxNode → List FunctionInfo
  | .mk k label flag sp cs =>
    let rest := collectFnsList cs
    if k = NodeKind.funcDecl then
      { name := label, span := sp,
        cyclomaticComplexity := 1 + countDecisionsList cs,
        parameterCount := (paramNames cs).length,
        isExported := flag } :: rest
    else if k = NodeKind.varDecl then
      match cs with
      | [c] =>
        if c.kind = NodeKind.arrowK then
          { name := label, span := sp,
            cyclomaticComplexity := 1 + countDecisionsNode c,
            parameterCount := (paramNames c.children).length,
            isExported := flag } :: rest
        else rest
      | _ => rest
    else rest

def collectFnsList : List SyntaxNode → List FunctionInfo
  | [] => []
  | n :: ns => collectFnsNode n ++ collectFnsList ns
end

mutual
/-- Whether a subtree contains a JSX-shaped node. -/
def containsJsxNode : SyntaxNode → Bool
  | .mk k _ _ _ cs => k = NodeKind.jsxK || containsJsxList cs

def containsJsxList : List SyntaxNode → Bool
  | [] => false
  | n :: ns => containsJsxNode n || containsJsxList ns
end

mutual
/-- Whether a subtree contains a `this` reference. -/
def containsThisNode : SyntaxNode → Bool
  | .mk k _ _ _ cs => k = NodeKind.thisK || containsThisList cs

def containsThisList : List SyntaxNode → Bool
  | [] => false
  | n :: ns => containsThisNode n || containsThisList ns
end

/-- Hook-name shape: identifier matching `use[A-Z]...`. -/
def isHookName (s : String) : Bool :=
  match s.toList with
  | 'u' :: 's' :: 'e' :: c :: _ => c.isUpper
  | _ => false

mutual
/-- Call-expression callee names matching the hook pattern in a subtree. -/
def hookCallsNode : SyntaxNode → List String
  | .mk k label _ _ cs =>
    let rest := hookCallsList cs
    if k = NodeKind.callK && isHookName label then label :: rest else rest

def hookCallsList : List SyntaxNode → List String
  | [] => []
  | n :: ns => hookCallsNode n ++ hookCallsList ns
end

def isCapitalized (s : String) : Bool :=
  match s.toList with
  | c :: _ => c.isUpper
  | [] => false

mutual
/-- Component detection: a function (declaration or arrow bound to a
variable) with a capitalized name whose body contains a JSX-shaped
expression. -/
def collectCompsNode : SyntaxNode → List ComponentInfo
  | .mk k label _ sp cs =>
    let rest := collectCompsList cs
    if k = NodeKind.funcDecl && isCapitalized label && containsJsxList cs then
      { name := label, span := sp, hooksUsed := hookCallsList cs,
        propsShape := paramNames cs, hasMemoization := false } :: rest
    else if k = NodeKind.varDecl && isCapitalized label then
      match cs with
      | [c] =>
        if c.kind = NodeKind.arrowK && containsJsxNode c then
          { name := label, span := sp, hooksUsed := hookCallsNode c,
            propsShape := paramNames c.children, hasMemoization := false } :: rest
        else rest
      | _ => rest
    else rest

def collectCompsList : List SyntaxNode → List ComponentInfo
  | [] => []
  | n :: ns => collectCompsNode n ++ collectCompsList ns
end

/-- Import edges: the top-level import statements of the program. -/
def collectImports (ast : SyntaxNode) : List ImportInfo :=
  (ast.children.filter (fun n => n.kind = NodeKind.importK)).map fun n =>
    { modulePath := n.label,
      bindingNames := n.children.map SyntaxNode.label,
      isTypeOnly := n.flag }

/-- Export edges: the top-level exported declarations of the program. -/
def collectExports (filePath : String) (ast : SyntaxNode) : List ImportInfo :=
  (ast.children.filter (fun n =>
      (n.kind = NodeKind.funcDecl || n.kind = NodeKind.varDecl) && n.flag)).map
    fun n =>
      { modulePath := filePath, bindingNames := [n.label], isTypeOnly := false }

/-- Modelled from the spec: functions with complexity > 10 are flagged with
severity "warning", > 20 with severity "critical". -/
def complexityPatterns (warn crit : Nat) (fns : List FunctionInfo) :
    List PatternInfo :=
  fns.filterMap fun f =>
    if f.cyclomaticComplexity > crit then
      some { pkind := .antiPattern, span := f.span,
             message := "function complexity exceeds critical threshold",
             severity := .critical }
    else if f.cyclomaticComplexity > warn then
      some { pkind := .antiPattern, span := f.span,
             message := "function complexity exceeds warning threshold",
             severity := .warning }
    else none

def countLines (s : String) : Nat :=
  1 + (s.toList.filter (fun c => c = '\n')).length

def computeMetrics (text : String) (fns : List FunctionInfo) : Metrics :=
  let ccs := fns.map FunctionInfo.cyclomaticComplexity
  { lineCount := countLines text,
    functionCount := fns.length,
    averageComplexity := if fns.length = 0 then 0 else ccs.sum / fns.length,
    maxComplexity := ccs.foldr Nat.max 0 }

def emptyMetrics : Metrics :=
  { lineCount := 0, functionCount := 0, averageComplexity := 0,
    maxComplexity := 0 }

/-- Modelled from the spec: `analyze(sourceUnit, options) -> AnalysisResult`,
failing with `AnalysisError{reason:"parse-failure"}` on malformed source; the
options toggle whether metrics and patterns sections are populated (skipped
sections are empty). -/
def analyze (su : SourceUnit) (opts : AnalyzeOptions) :
    Except AnalysisError AnalysisResult :=
  match parse su.text su.dialect with
  | .error e => .error { reason := "parse-failure", details := e.message }
  | .ok ast =>
      let fns := collectFnsNode ast
      .ok { metrics := if opts.includeMetrics then computeMetrics su.text fns
                       else emptyMetrics,
            functions := fns,
            components := collectCompsNode ast,
            imports := collectImports ast,
            exports := collectExports su.filePath ast,
            patterns := if opts.includePatterns then
                          complexityPatterns 10 20 fns
                        else [] }

/-- Functions section of an analysis outcome (empty on failure). -/
def fnsOf : Except AnalysisError AnalysisResult → List FunctionInfo
  | .ok r => r.functions
  | .error _ => []

def lbrace : String := "\x7b"

def rbrace : String := "\x7d"

def quoted (s : String) : String := "\"" ++ s ++ "\""

def joinComma : List String → String
  | [] => ""
  | [s] => s
  | s :: ss => s ++ ", " ++ joinComma ss

/-- Prints an import statement back to source text. -/
def printImportNode (label : String) (flag : Bool) (cs : List SyntaxNode) :
    String :=
  match cs with
  | [] => "import " ++ quoted label ++ ";"
  | _ =>
      "import " ++ (if flag then "type " else "") ++ lbrace ++ " " ++
      joinComma (cs.map SyntaxNode.label) ++ " " ++ rbrace ++ " from " ++
      quoted label ++ ";"

mutual
/-- Prints a syntax node back to (re-parseable) source text.  Compound
expressions self-parenthesize so that printed text re-tokenizes and
re-parses unambiguously. -/
def printNode : SyntaxNode → String
  | .mk .program _ _ _ cs => printList cs
  | .mk .importK label flag _ cs => printImportNode label flag cs
  | .mk .funcDecl name flag _ cs =>
      let (ps, body) := printFnKids cs
      (if flag then "export " else "") ++ "function " ++ name ++ "(" ++ ps ++
        ") " ++ body
  | .mk .block _ _ _ ss => lbrace ++ " " ++ printList ss ++ " " ++ rbrace
  | .mk .varDecl name flag _ [v] =>
      (if flag then "export " else "") ++ "const " ++ name ++ " = " ++
        printNode v ++ ";"
  | .mk .assign name _ _ [v] => name ++ " = " ++ printNode v ++ ";"
  | .mk .ifK _ _ _ [c, t] => "if (" ++ printNode c ++ ") " ++ printNode t
  | .mk .ifK _ _ _ [c, t, e] =>
      "if (" ++ printNode c ++ ") " ++ printNode t ++ " else " ++ printNode e
  | .mk .whileK _ _ _ [c, b] => "while (" ++ printNode c ++ ") " ++ printNode b
  | .mk .tryK _ _ _ [b, cc] => "try " ++ printNode b ++ " " ++ printNode cc
  | .mk .catchClause p _ _ [b] => "catch (" ++ p ++ ") " ++ printNode b
  | .mk .switchK _ _ _ (scrut :: cases) =>
      "switch (" ++ printNode scrut ++ ") " ++ lbrace ++ " " ++
        printList cases ++ " " ++ rbrace
  | .mk .caseK _ _ _ (test :: body) =>
      "case " ++ printNode test ++ ": " ++ printList body
  | .mk .defaultK _ _ _ body => "default: " ++ printList body
  | .mk .returnK _ _ _ [] => "return;"
  | .mk .returnK _ _ _ [e] => "return " ++ printNode e ++ ";"
  | .mk .exprStmt _ _ _ [e] => printNode e ++ ";"
  | .mk .callK name _ _ args => name ++ "(" ++ printArgsList args ++ ")"
  | .mk .identK name _ _ _ => name
  | .mk .numK text _ _ _ => text
  | .mk .strK text _ _ _ => quoted text
  | .mk .ternaryK _ _ _ [c, t, e] =>
      "(" ++ printNode c ++ " ? " ++ printNode t ++ " : " ++ printNode e ++ ")"
  | .mk .andK _ _ _ [l, r] =>
      "(" ++ printNode l ++ " && " ++ printNode r ++ ")"
  | .mk .orK _ _ _ [l, r] =>
      "(" ++ printNode l ++ " || " ++ printNode r ++ ")"
  | .mk .arrowK _ _ _ cs =>
      let (ps, body) := printFnKids cs
      "((" ++ ps ++ ") => " ++ body ++ ")"
  | .mk .thisK _ _ _ _ => "this"
  | .mk .jsxK tag _ _ _ => "<" ++ tag ++ "/>"
  | .mk .param name _ _ _ => name
  | .mk .binding name _ _ _ => name
  | .mk _ _ _ _ _ => ""

def printList : List SyntaxNode → String
  | [] => ""
  | [n] => printNode n
  | n :: ns => printNode n ++ " " ++ printList ns

def printArgsList : List SyntaxNode → String
  | [] => ""
  | [n] => printNode n
  | n :: ns => printNode n ++ ", " ++ printArgsList ns

/-- Splits a function node's children into the printed parameter list and
the printed body. -/
def printFnKids : List SyntaxNode → String × String
  | [] => ("", "")
  | c :: cs =>
      let (ps, b) := printFnKids cs
      if c.kind = NodeKind.param then
        (if ps = "" then (c.label, b) else (c.label ++ ", " ++ ps, b))
      else (ps, printNode c ++ b)
end

def isImportNode (n : SyntaxNode) : Bool :=
  n.kind = NodeKind.importK

mutual
/-- Identifier-reference labels of a subtree (plain identifiers, call
callees and JSX tags): the Analyzer's binding-usage data. -/
def collectUsesNode : SyntaxNode → List String
  | .mk k label _ _ cs =>
    let rest := collectUsesList cs
    if k = NodeKind.identK || k = NodeKind.callK || k = NodeKind.jsxK then
      label :: rest
    else rest

def collectUsesList : List SyntaxNode → List String
  | [] => []
  | n :: ns => collectUsesNode n ++ collectUsesList ns
end

/-- Modelled from the spec: import group policy — external packages first,
then internal paths, then relative paths. -/
def groupRank (path : String) : Nat :=
  match path.toList with
  | '.' :: _ => 2
  | '@' :: '/' :: _ => 1
  | '/' :: _ => 1
  | _ => 0

/-- Lexicographic comparison of character lists. -/
def charListLE : List Char → List Char → Bool
  | [], _ => true
  | _ :: _, [] => false
  | a :: as, b :: bs =>
      decide (a.toNat < b.toNat) ||
        (decide (a.toNat = b.toNat) && charListLE as bs)

/-- Alphabetical comparison of strings. -/
def strLE (a b : String) : Bool :=
  charListLE a.toList b.toList

theorem charListLE_total : ∀ as bs : List Char,
    charListLE as bs = true ∨ charListLE bs as = true := by
  intro as
  induction as with
  | nil => intro bs; exact Or.inl rfl
  | cons a as ih =>
      intro bs
      cases bs with
      | nil => exact Or.inr rfl
      | cons b bs =>
          rcases Nat.lt_trichotomy a.toNat b.toNat with h | h | h
          · exact Or.inl (by simp [charListLE, h])
          · rcases ih bs with h' | h'
            · exact Or.inl (by simp [charListLE, h, h'])
            · exact Or.inr (by simp [charListLE, h.symm, h'])
          · exact Or.inr (by simp [charListLE, h])

theorem charListLE_trans : ∀ as bs cs : List Char,
    charListLE as bs = true → charListLE bs cs = true →
      charListLE as cs = true := by
  intro as
  induction as with
  | nil => intro bs cs _ _; rfl
  | cons a as ih =>
      intro bs cs hab hbc
      cases bs with
      | nil => exact absurd hab (by simp [charListLE])
      | cons b bs =>
          cases cs with
          | nil => exact absurd hbc (by simp [charListLE])
          | cons c cs =>
              simp only [charListLE, Bool.or_eq_true, Bool.and_eq_true,
                decide_eq_true_eq] at hab hbc ⊢
              rcases hab with hab | ⟨hab, hab'⟩ <;>
                rcases hbc with hbc | ⟨hbc, hbc'⟩
              · exact Or.inl (hab.trans hbc)
              · exact Or.inl (hbc ▸ hab)
              · exact Or.inl (hab ▸ hbc)
              · exact Or.inr ⟨hab.trans hbc, ih bs cs hab' hbc'⟩

/-- The import ordering: by group, then alphabetically by module path. -/
def importLE (a b : SyntaxNode) : Prop :=
  groupRank a.label < groupRank b.label ∨
    (groupRank a.label = groupRank b.label ∧ strLE a.label b.label = true)

instance : DecidableRel importLE := fun a b => by
  unfold importLE
  exact inferInstance

instance : IsTotal SyntaxNode importLE := by
  constructor
  intro a b
  rcases Nat.lt_trichotomy (groupRank a.label) (groupRank b.label) with h | h | h
  · exact Or.inl (Or.inl h)
  · rcases charListLE_total a.label.toList b.label.toList with h' | h'
    · exact Or.inl (Or.inr ⟨h, h'⟩)
    · exact Or.inr (Or.inr ⟨h.symm, h'⟩)
  · exact Or.inr (Or.inl h)

instance : IsTrans SyntaxNode importLE := by
  constructor
  intro a b c hab hbc
  rcases hab with h1 | ⟨h1, h1'⟩ <;> rcases hbc with h2 | ⟨h2, h2'⟩
  · exact Or.inl (h1.trans h2)
  · exact Or.inl (h2 ▸ h1)
  · exact Or.inl (h1 ▸ h2)
  · exact Or.inr ⟨h1.trans h2, charListLE_trans _ _ _ h1' h2'⟩

/-- Drops the unused named bindings of an import statement. -/
def filterBindings (used : List String) (n : SyntaxNode) : SyntaxNode :=
  match n with
  | .mk k label flag sp cs =>
    if k = NodeKind.importK then
      .mk k label flag sp (cs.filter (fun b => used.contains b.label))
    else .mk k label flag sp cs

/-- Modelled from the spec: `organize-imports` sorts/groups import statements
by the fixed policy and removes unused named imports detected via the
Analyzer's binding-usage data; non-import statements are kept after
the import block, in order. -/
def organizeStmts (ss : List SyntaxNode) : List SyntaxNode :=
  List.insertionSort importLE
    ((ss.filter isImportNode).map
      (filterBindings (collectUsesList (ss.filter fun n => !isImportNode n)))) ++
  ss.filter fun n => !isImportNode n

/-- `organize-imports` applied to a whole program node. -/
def organizeProgram (ast : SyntaxNode) : SyntaxNode :=
  match ast with
  | .mk k label flag sp cs =>
      if k = NodeKind.program then .mk k label flag sp (organizeStmts cs)
      else ast

/-- Modelled from the spec: the fixed set of supported refactoring
operations. -/
inductive OperationKind
  | extractFunction
  | extractComponent
  | convertFunctionStyle
  | renameSymbol
  | extractVariable
  | inlineVariable
  | organizeImports
  | removeDeadCode
deriving DecidableEq, Repr

/-- Modelled from the spec: `RefactorError{reason}`. -/
structure RefactorError where
  reason : String
deriving DecidableEq, Repr

/-- Modelled from the spec: a RefactoringPlan describing one proposed
source-to-source transformation. -/
structure RefactoringPlan where
  operationKind : OperationKind
  targetSpans : List Span
  proposedText : String
  affectedSpans : List Span
  isDryRun : Bool
deriving DecidableEq, Repr

/-- Modelled from the spec: refactoring options; every operation supports
`dryRun`. -/
structure RefactorOptions where
  dryRun : Bool := true
  targetName : String := ""
  newName : String := ""
  targetSpan : Span := ⟨0, 0⟩
deriving DecidableEq, Repr

def sliceStr (s : String) (sp : Span) : String :=
  String.mk ((s.toList.drop sp.start).take (sp.stop - sp.start))

def spliceStr (s : String) (sp : Span) (replacement : String) : String :=
  String.mk (s.toList.take sp.start) ++ replacement ++
    String.mk (s.toList.drop sp.stop)

mutual
/-- Renames every binding or reference label equal to `old` to `new`. -/
def renameNode (old new : String) : SyntaxNode → SyntaxNode
  | .mk k label flag sp cs =>
      let label' := if label = old then new else label
      .mk k label' flag sp (renameList old new cs)

def renameList (old new : String) : List SyntaxNode → List SyntaxNode
  | [] => []
  | n :: ns => renameNode old new n :: renameList old new ns
end

mutual
/-- Labels bound by declarations in a subtree (functions, variables,
parameters, import bindings). -/
def declaredNamesNode : SyntaxNode → List String
  | .mk k label _ _ cs =>
    let rest := declaredNamesList cs
    if k = NodeKind.funcDecl || k = NodeKind.varDecl || k = NodeKind.param ||
        k = NodeKind.binding then
      label :: rest
    else rest

def declaredNamesList : List SyntaxNode → List String
  | [] => []
  | n :: ns => declaredNamesNode n ++ declaredNamesList ns
end

mutual
/-- Whether a subtree assigns to the named variable. -/
def assignsToNode (x : String) : SyntaxNode → Bool
  | .mk k label _ _ cs =>
      (k = NodeKind.assign && label = x) || assignsToList x cs

def assignsToList (x : String) : List SyntaxNode → Bool
  | [] => false
  | n :: ns => assignsToNode x n || assignsToList x ns
end

mutual
/-- Substitutes an expression for every plain reference to the named
variable. -/
def substNode (x : String) (v : SyntaxNode) : SyntaxNode → SyntaxNode
  | .mk k label flag sp cs =>
      if k = NodeKind.identK && label = x then v
      else .mk k label flag sp (substList x v cs)

def substList (x : String) (v : SyntaxNode) : List SyntaxNode → List SyntaxNode
  | [] => []
  | n :: ns => substNode x v n :: substList x v ns
end

/-- Modelled from the spec: `remove-dead-code` removes top-level
functions/variables with zero references and zero export status; never
removes anything exported or used. -/
def removeDeadStmts (ss : List SyntaxNode) : List SyntaxNode :=
  let uses := collectUsesList ss
  ss.filter fun n =>
    !((n.kind = NodeKind.funcDecl || n.kind = NodeKind.varDecl) &&
      !n.flag && !uses.contains n.label)

/-- Converts one top-level function between declaration and arrow style,
failing when the body references `this` (the conversion would change
binding behavior) or no function with the target name exists. -/
def convertTop (target : String) : List SyntaxNode →
    Except RefactorError (List SyntaxNode)
  | [] => .error ⟨"invalid-selection"⟩
  | n :: rest =>
    match n with
    | .mk .funcDecl name flag sp cs =>
      if name = target then
        if containsThisList cs then .error ⟨"this-binding-change"⟩
        else
          .ok (SyntaxNode.mk .varDecl name flag sp
            [SyntaxNode.mk .arrowK "" false sp cs] :: rest)
      else
        match convertTop target rest with
        | .error e => .error e
        | .ok rest' => .ok (n :: rest')
    | .mk .varDecl name flag sp [SyntaxNode.mk .arrowK _ _ _ acs] =>
      if name = target then
        if containsThisList acs then .error ⟨"this-binding-change"⟩
        else .ok (SyntaxNode.mk .funcDecl name flag sp acs :: rest)
      else
        match convertTop target rest with
        | .error e => .error e
        | .ok rest' => .ok (n :: rest')
    | _ =>
      match convertTop target rest with
      | .error e => .error e
      | .ok rest' => .ok (n :: rest')

/-- Inlines one top-level `const` variable, failing with
`RefactorError{reason:"mutated-before-use"}` when the variable is
reassigned. -/
def inlineTop (target : String) (all : List SyntaxNode) :
    List SyntaxNode → Except RefactorError (List SyntaxNode)
  | [] => .error ⟨"invalid-selection"⟩
  | n :: rest =>
    match n with
    | .mk .varDecl name _ _ [v] =>
      if name = target then
        if assignsToList target all then .error ⟨"mutated-before-use"⟩
        else .ok (substList target v rest)
      else
        match inlineTop target all rest with
        | .error e => .error e
        | .ok rest' => .ok (n :: rest')
    | _ =>
      match inlineTop target all rest with
      | .error e => .error e
      | .ok rest' => .ok (n :: rest')

mutual
/-- Whether a subtree contains a `return` statement (extraction would change
meaning). -/
def containsReturnNode : SyntaxNode → Bool
  | .mk k _ _ _ cs => k = NodeKind.returnK || containsReturnList cs

def containsReturnList : List SyntaxNode → Bool
  | [] => false
  | n :: ns => containsReturnNode n || containsReturnList ns
end

/-- Whether a span selects complete statements of the source (the selected
slice itself parses as a statement sequence). -/
def spanSelectsStmts (text : String) (sp : Span) : Option (List SyntaxNode) :=
  if sp.stop ≤ text.length && sp.start < sp.stop then
    match parse (sliceStr text sp) Dialect.ts with
    | .ok (.mk _ _ _ _ stmts) => if stmts.isEmpty then none else some stmts
    | .error _ => none
  else none

/-- Whether a span selects a single complete JSX element. -/
def spanSelectsJsx (text : String) (sp : Span) : Bool :=
  match tokenize (sliceStr text sp) with
  | .ok [lt, tag, slash, gt] =>
      isPunct "<" lt && tag.tkind = TokKind.identT && isPunct "/" slash &&
        isPunct ">" gt
  | _ => false

/-- Modelled from the spec: computes the proposed replacement text and the
spans invalidated by one refactoring operation.  AST-level operations
re-print the transformed program; selection-based operations splice the
source text. -/
def applyOperation (su : SourceUnit) (ast : SyntaxNode) (op : OperationKind)
    (opts : RefactorOptions) : Except RefactorError (String × List Span) :=
  let whole : Span := ⟨0, su.text.length⟩
  match op with
  | .organizeImports => .ok (printNode (organizeProgram ast), [whole])
  | .removeDeadCode =>
      match ast with
      | .mk k label flag sp cs =>
          if k = NodeKind.program then
            .ok (printNode (.mk k label flag sp (removeDeadStmts cs)), [whole])
          else .error ⟨"invalid-selection"⟩
  | .renameSymbol =>
      if (declaredNamesNode ast).contains opts.newName then
        .error ⟨"name-collision"⟩
      else .ok (printNode (renameNode opts.targetName opts.newName ast), [whole])
  | .convertFunctionStyle =>
      match ast with
      | .mk k label flag sp cs =>
          if k = NodeKind.program then
            match convertTop opts.targetName cs with
            | .error e => .error e
            | .ok cs' => .ok (printNode (.mk k label flag sp cs'), [whole])
          else .error ⟨"invalid-selection"⟩
  | .inlineVariable =>
      match ast with
      | .mk k label flag sp cs =>
          if k = NodeKind.program then
            match inlineTop opts.targetName cs cs with
            | .error e => .error e
            | .ok cs' => .ok (printNode (.mk k label flag sp cs'), [whole])
          else .error ⟨"invalid-selection"⟩
  | .extractVariable =>
      if opts.targetSpan.stop ≤ su.text.length &&
          opts.targetSpan.start < opts.targetSpan.stop then
        let spanText := sliceStr su.text opts.targetSpan
        .ok ("const " ++ opts.newName ++ " = " ++ spanText ++ "; " ++
              spliceStr su.text opts.targetSpan opts.newName,
             [whole])
      else .error ⟨"invalid-selection"⟩
  | .extractFunction =>
      match spanSelectsStmts su.text opts.targetSpan with
      | none => .error ⟨"invalid-selection"⟩
      | some stmts =>
          if containsReturnList stmts then .error ⟨"invalid-selection"⟩
          else
            .ok (spliceStr su.text opts.targetSpan (opts.newName ++ "();") ++
                  " function " ++ opts.newName ++ "() " ++ lbrace ++ " " ++
                  sliceStr su.text opts.targetSpan ++ " " ++ rbrace,
                 [whole])
  | .extractComponent =>
      if spanSelectsJsx su.text opts.targetSpan then
        .ok (spliceStr su.text opts.targetSpan ("<" ++ opts.newName ++ "/>") ++
              " function " ++ opts.newName ++ "() " ++ lbrace ++ " return " ++
              sliceStr su.text opts.targetSpan ++ "; " ++ rbrace,
             [whole])
      else .error ⟨"invalid-selection"⟩

/-- Modelled from the spec: `refactor(sourceUnit, analysisResult,
operationKind, options) -> RefactoringPlan | RefactorError`.  The Refactorer
re-parses its own output before returning success; if the re-parse fails it
fails with `RefactorError{reason:"unsafe-transform"}` and the proposed edit
is discarded. -/
def refactor (su : SourceUnit) (_ar : AnalysisResult) (op : OperationKind)
    (opts : RefactorOptions) : Except RefactorError RefactoringPlan :=
  match parse su.text su.dialect with
  | .error _ => .error ⟨"parse-failure"⟩
  | .ok ast =>
      match applyOperation su ast op opts with
      | .error e => .error e
      | .ok (newText, affected) =>
          match parse newText su.dialect with
          | .error _ => .error ⟨"unsafe-transform"⟩
          | .ok _ =>
              .ok { operationKind := op, targetSpans := [opts.targetSpan],
                    proposedText := newText, affectedSpans := affected,
                    isDryRun := opts.dryRun }

/-- Modelled from the spec: a RefactoringPlan either is discarded (dry run)
or is applied to produce a new SourceUnit text. -/
def applyRefactoringPlan (su : SourceUnit) (plan : RefactoringPlan) :
    SourceUnit :=
  if plan.isDryRun then su else { su with text := plan.proposedText }

/-- Success test for `Except` values. -/
def isOkE : Except ε α → Bool
  | .ok _ => true
  | .error _ => false

inductive SuggestionKind
  | memoize | split | treeShake | lazyLoad
deriving DecidableEq, Repr

inductive Impact
  | low | medium | high
deriving DecidableEq, Repr

/-- Modelled from the spec: an OptimizationSuggestion. -/
structure OptimizationSuggestion where
  kind : SuggestionKind
  targetSpan : Span
  rationale : String
  estimatedImpact : Impact
  codeAction : Option String
deriving DecidableEq, Repr

def impactRank : Impact → Nat
  | .high => 2
  | .medium => 1
  | .low => 0

/-- The identity of a suggestion for duplicate detection. -/
def suggKey (s : OptimizationSuggestion) : SuggestionKind × Span :=
  (s.kind, s.targetSpan)

/-- Keeps the first suggestion for each (kind, targetSpan) pair. -/
def dedupSuggs (l : List OptimizationSuggestion) :
    List OptimizationSuggestion :=
  l.foldl
    (fun acc s =>
      if acc.any (fun t => suggKey t = suggKey s) then acc else acc ++ [s])
    []

/-- Suggestion ordering: descending estimated impact, then ascending target
span start. -/
def suggLE (a b : OptimizationSuggestion) : Prop :=
  impactRank b.estimatedImpact < impactRank a.estimatedImpact ∨
    (impactRank a.estimatedImpact = impactRank b.estimatedImpact ∧
      a.targetSpan.start ≤ b.targetSpan.start)

instance : DecidableRel suggLE := fun a b => by
  unfold suggLE
  exact inferInstance

instance : IsTotal OptimizationSuggestion suggLE := by
  constructor
  intro a b
  rcases Nat.lt_trichotomy (impactRank a.estimatedImpact)
    (impactRank b.estimatedImpact) with h | h | h
  · exact Or.inr (Or.inl h)
  · rcases Nat.le_total a.targetSpan.start b.targetSpan.start with h' | h'
    · exact Or.inl (Or.inr ⟨h, h'⟩)
    · exact Or.inr (Or.inr ⟨h.symm, h'⟩)
  · exact Or.inl (Or.inl h)

instance : IsTrans OptimizationSuggestion suggLE := by
  constructor
  intro a b c hab hbc
  rcases hab with h1 | ⟨h1, h1'⟩ <;> rcases hbc with h2 | ⟨h2, h2'⟩
  · exact Or.inl (h2.trans h1)
  · exact Or.inl (h2 ▸ h1)
  · exact Or.inl (h1 ▸ h2)
  · exact Or.inr ⟨h1.trans h2, h1'.trans h2'⟩

/-- Modelled from the spec: candidate suggestions before duplicate removal —
a memoization suggestion per unmemoized component with props, and a
code-splitting suggestion per exported function of an oversized file. -/
def rawSuggestions (ar : AnalysisResult) : List OptimizationSuggestion :=
  (ar.components.filterMap fun c =>
    if !c.hasMemoization && !c.propsShape.isEmpty then
      some { kind := .memoize, targetSpan := c.span,
             rationale := "component re-renders with non-primitive props",
             estimatedImpact := .high, codeAction := none }
    else none) ++
  (ar.functions.filterMap fun f =>
    if f.isExported && ar.metrics.lineCount > 300 then
      some { kind := .split, targetSpan := f.span,
             rationale := "oversized file: consider code splitting",
             estimatedImpact := .medium, codeAction := none }
    else none)

/-- Modelled from the spec: `optimize(analysisResult, options) -> sequence of
OptimizationSuggestion`, ordered by descending estimatedImpact then
ascending target span start, with no duplicate (kind, targetSpan) pairs. -/
def optimize (ar : AnalysisResult) : List OptimizationSuggestion :=
  List.insertionSort suggLE (dedupSuggs (rawSuggestions ar))

/-- Modelled from the spec: the content hash fingerprinting a source text
for cache keys. -/
def contentHash (s : String) : Nat :=
  s.toList.foldl (fun h c => (h * 31 + c.toNat) % 4294967296) 7

abbrev CacheKey := String × Nat

/-- Modelled from the spec: the Orchestration Service state — the
AnalysisResult cache and the in-flight map keyed by (filePath, contentHash),
plus a counter of Analyzer core executions started. -/
structure ServiceState where
  cache : List (CacheKey × AnalysisResult)
  inflight : List (CacheKey × List Nat)
  parseCount : Nat

def lookupCache (k : CacheKey) (l : List (CacheKey × AnalysisResult)) :
    Option AnalysisResult :=
  (l.find? (fun p => p.1 = k)).map (·.2)

def lookupWaiters (k : CacheKey) (l : List (CacheKey × List Nat)) :
    Option (List Nat) :=
  (l.find? (fun p => p.1 = k)).map (·.2)

def updateWaiters (k : CacheKey) (ws : List Nat)
    (l : List (CacheKey × List Nat)) : List (CacheKey × List Nat) :=
  l.map fun p => if p.1 = k then (k, ws) else p

def removeKey (k : CacheKey) (l : List (CacheKey × List Nat)) :
    List (CacheKey × List Nat) :=
  l.filter fun p => !(p.1 = k : Bool)

/-- The Analyzer invocation performed by the service for a request. -/
def analyzeContent (filePath content : String) :
    Except AnalysisError AnalysisResult :=
  analyze ⟨filePath, content, .ts⟩ {}

/-- Events at the Orchestration Service boundary: a caller's request, and
the completion of the in-flight computation for a key. -/
inductive SvcEvent
  | request (caller : Nat) (filePath content : String)
  | complete (filePath content : String)

/-- Modelled from the spec: one service transition.  A request hits the
cache, joins the in-flight waiters for its key, or starts a new computation
(incrementing the Analyzer execution counter); completion resolves every
waiter of the key with the same result and caches it. -/
def svcStep (st : ServiceState) :
    SvcEvent → ServiceState × List (Nat × Except AnalysisError AnalysisResult)
  | .request caller fp content =>
      let key : CacheKey := (fp, contentHash content)
      match lookupCache key st.cache with
      | some r => (st, [(caller, .ok r)])
      | none =>
          match lookupWaiters key st.inflight with
          | some ws =>
              ({ st with inflight := updateWaiters key (ws ++ [caller]) st.inflight },
               [])
          | none =>
              ({ st with inflight := (key, [caller]) :: st.inflight,
                         parseCount := st.parseCount + 1 },
               [])
  | .complete fp content =>
      let key : CacheKey := (fp, contentHash content)
      match lookupWaiters key st.inflight with
      | none => (st, [])
      | some ws =>
          let res := analyzeContent fp content
          let st' : ServiceState :=
            { cache := match res with
                       | .ok r => (key, r) :: st.cache
                       | .error _ => st.cache,
              inflight := removeKey key st.inflight,
              parseCount := st.parseCount }
          (st', ws.map fun c => (c, res))

/-- Runs a sequence of service events, accumulating delivered results. -/
def svcRun (st : ServiceState) :
    List SvcEvent → ServiceState × List (Nat × Except AnalysisError AnalysisResult)
  | [] => (st, [])
  | e :: es =>
      let (st1, out) := svcStep st e
      let (st2, outs) := svcRun st1 es
      (st2, out ++ outs)

/-- What the AuthGuard component renders. -/
inductive GuardRender
  | loadingSpinner
  | loginPage
  | fallbackView
  | accessDenied
  | childrenView
deriving DecidableEq, Repr

/-- The auth state consumed by AuthGuard via useAuth. -/
structure AuthSnapshot where
  isAuthenticated : Bool
  isLoading : Bool
  hasRole : String → Bool

/-- JavaScript truthiness of the optional `requiredRole` string prop. -/
def roleTruthy : Option String → Bool
  | some r => r ≠ ""
  | none => false

/-- Embeds `AuthGuard` from src/src/components/AuthGuard.tsx: loading
spinner while checking, LoginPage when unauthenticated, fallback or
access-denied when a truthy requiredRole is not held, children otherwise. -/
def authGuard (auth : AuthSnapshot) (requiredRole : Option String)
    (hasFallback : Bool) : GuardRender :=
  if auth.isLoading then .loadingSpinner
  else if !auth.isAuthenticated then .loginPage
  else if roleTruthy requiredRole && !auth.hasRole (requiredRole.getD "") then
    if hasFallback then .fallbackView else .accessDenied
  else .childrenView

/-- A JavaScript Error value as inspected by `handleError`
(src/docs/frontend_development_methodology.js). -/
structure JsError where
  name : String
  message : String
  status : Option Nat
deriving DecidableEq, Repr

def strIncludes (s sub : String) : Bool :=
  (List.range (s.toList.length + 1)).any fun i =>
    sub.toList.isPrefixOf (s.toList.drop i)

def statusIs (e : JsError) (n : Nat) : Bool :=
  e.status = some n

def statusAtLeast (e : JsError) (n : Nat) : Bool :=
  match e.status with
  | some s => n ≤ s
  | none => false

/-- Embeds the `userMessage` selection of `handleError` from
src/docs/frontend_development_methodology.js. -/
def handleErrorUserMessage (e : JsError) : String :=
  if e.name = "NetworkError" || strIncludes e.message "fetch" then
    "Unable to connect to the server. Please check your internet connection."
  else if e.name = "TimeoutError" || strIncludes e.message "timeout" then
    "The request took too long. Please try again."
  else if statusIs e 401 || strIncludes e.message "unauthorized" then
    "Your session has expired. Please log in again."
  else if statusIs e 403 || strIncludes e.message "forbidden" then
    "You do not have permission to perform this action."
  else if statusIs e 404 then
    "The requested resource was not found."
  else if statusIs e 400 || e.name = "ValidationError" then
    "Please check your input and try again."
  else if statusAtLeast e 500 then
    "A server error occurred. Our team has been notified."
  else
    "An unexpected error occurred. Please try again."

/-- The Neo4j client interface used by the useNeo4j hook
(src/src/hooks/useNeo4j.ts); each method either returns a payload or throws
a JavaScript error. -/
structure Neo4jFrontendClient where
  searchClasses : String → Option String → Except JsError (List String)
  searchFunctions : String → Option String → Except JsError (List String)
  getClassDetails : String → Except JsError String
  getCodePatterns : String → Nat → Except JsError (List String)
  validateImports : List String → Except JsError (List (String × Bool))
  getSimilarImplementations : String → Nat → Except JsError (List String)
  semanticCodeSearch : String → Option String → Nat → Except JsError (List String)
  getCodeQualityMetrics : String → Except JsError String
  getDependencyGraph : String → Except JsError String
  getRepositories : Unit → Except JsError (List String)

/-- The shared guard of every useNeo4j query method:
`if (!client || !state.isInitialized) throw new Error("Neo4j client not
initialized")`, then the client call with `handleError` wrapping.  `ready`
models the hook state's `isInitialized` flag. -/
def neo4jCall (client : Option Neo4jFrontendClient) (ready : Bool)
    (call : Neo4jFrontendClient → Except JsError α) : Except String α :=
  match client with
  | none => .error "Neo4j client not initialized"
  | some c =>
      if !ready then .error "Neo4j client not initialized"
      else
        match call c with
        | .ok v => .ok v
        | .error e => .error (handleErrorUserMessage e)

/-- `searchClasses` of useNeo4j. -/
def useNeo4j.searchClasses (client : Option Neo4jFrontendClient) (ready : Bool)
    (searchTerm : String) (repository : Option String) : Except String (List String) :=
  neo4jCall client ready fun c => c.searchClasses searchTerm repository

/-- `searchFunctions` of useNeo4j. -/
def useNeo4j.searchFunctions (client : Option Neo4jFrontendClient) (ready : Bool)
    (searchTerm : String) (repository : Option String) : Except String (List String) :=
  neo4jCall client ready fun c => c.searchFunctions searchTerm repository

/-- `getClassDetails` of useNeo4j. -/
def useNeo4j.getClassDetails (client : Option Neo4jFrontendClient) (ready : Bool)
    (className : String) : Except String String :=
  neo4jCall client ready fun c => c.getClassDetails className

/-- `getCodePatterns` of useNeo4j (limit defaults to 5 at the call site). -/
def useNeo4j.getCodePatterns (client : Option Neo4jFrontendClient) (ready : Bool)
    (context : String) (limit : Nat) : Except String (List String) :=
  neo4jCall client ready fun c => c.getCodePatterns context limit

/-- `validateImports` of useNeo4j. -/
def useNeo4j.validateImports (client : Option Neo4jFrontendClient) (ready : Bool)
    (imports : List String) : Except String (List (String × Bool)) :=
  neo4jCall client ready fun c => c.validateImports imports

/-- `getSimilarImplementations` of useNeo4j. -/
def useNeo4j.getSimilarImplementations (client : Option Neo4jFrontendClient)
    (ready : Bool) (functionSignature : String) (limit : Nat) :
    Except String (List String) :=
  neo4jCall client ready fun c => c.getSimilarImplementations functionSignature limit

/-- `semanticCodeSearch` of useNeo4j. -/
def useNeo4j.semanticCodeSearch (client : Option Neo4jFrontendClient)
    (ready : Bool) (query : String) (repository : Option String) (limit : Nat) :
    Except String (List String) :=
  neo4jCall client ready fun c => c.semanticCodeSearch query repository limit

/-- `getCodeQualityMetrics` of useNeo4j. -/
def useNeo4j.getCodeQualityMetrics (client : Option Neo4jFrontendClient)
    (ready : Bool) (filePath : String) : Except String String :=
  neo4jCall client ready fun c => c.getCodeQualityMetrics filePath

/-- `getDependencyGraph` of useNeo4j. -/
def useNeo4j.getDependencyGraph (client : Option Neo4jFrontendClient)
    (ready : Bool) (moduleName : String) : Except String String :=
  neo4jCall client ready fun c => c.getDependencyGraph moduleName

/-- `getRepositories` of useNeo4j. -/
def useNeo4j.getRepositories (client : Option Neo4jFrontendClient)
    (ready : Bool) : Except String (List String) :=
  neo4jCall client ready fun c => c.getRepositories ()

/-! Concrete inputs used by the scenario theorems and witnesses. -/

def scenario1SU : SourceUnit :=
  { filePath := "test.ts",
    text := "function f(a)\x7b if(a) \x7breturn 1;\x7d else \x7breturn 2;\x7d \x7d",
    dialect := .ts }

def emptyNode : SyntaxNode := .mk .program "" false ⟨0, 0⟩ []

def demoTree1 : SyntaxNode :=
  match parse scenario1SU.text Dialect.ts with
  | .ok t => t
  | .error _ => emptyNode

/-- C3: the Analyzer computes cyclomatic complexity per function as 1 plus
the count of decision points; on
`"function f(a){ if(a) {return 1;} else {return 2;} }"` it reports exactly
one function, of cyclomatic complexity 2 (the parsed program holds exactly
one decision point, the `if`). -/
theorem analyze_cyclomatic_scenario :
    fnsOf (analyze scenario1SU {}) =
      [{ name := "f", span := ⟨0, 51⟩, cyclomaticComplexity := 2,
         parameterCount := 1, isExported := false }] ∧
    countDecisionsNode demoTree1 = 1 := by
  exact ⟨rfl, rfl⟩

/-- C2: `parse` is deterministic — two parses of the same text and dialect
yield structurally identical trees (the same node kinds and spans in the
same preorder positions). -/
theorem parse_deterministic (src : String) (d : Dialect) (t₁ t₂ : SyntaxNode)
    (h₁ : parse src d = .ok t₁) (h₂ : parse src d = .ok t₂) :
    shapeNode t₁ = shapeNode t₂ := by
  rw [h₁] at h₂
  cases h₂
  rfl

theorem parse_deterministic_witness :
    parse scenario1SU.text Dialect.ts = .ok demoTree1 ∧
      shapeNode demoTree1 = shapeNode demoTree1 :=
  ⟨rfl, parse_deterministic scenario1SU.text Dialect.ts demoTree1 demoTree1
    rfl rfl⟩

/-- Inserts a statement at a position of a statement list (at the end when
the position exceeds the length). -/
def insertAt (n : Nat) (s : SyntaxNode) : List SyntaxNode → List SyntaxNode
  | [] => [s]
  | x :: xs =>
      match n with
      | 0 => s :: x :: xs
      | m + 1 => x :: insertAt m s xs

theorem countDecisionsList_insertAt (n : Nat) (s : SyntaxNode) :
    ∀ xs : List SyntaxNode,
      countDecisionsList (insertAt n s xs) =
        countDecisionsNode s + countDecisionsList xs := by
  induction n with
  | zero =>
      intro xs
      cases xs with
      | nil => simp [insertAt, countDecisionsList]
      | cons x xs => simp [insertAt, countDecisionsList]
  | succ m ih =>
      intro xs
      cases xs with
      | nil => simp [insertAt, countDecisionsList]
      | cons x xs =>
          simp only [insertAt, countDecisionsList, ih xs]
          omega

/-- The cyclomatic complexity the Analyzer reports for a function
declaration node (0 when the node yields no function). -/
def reportedCC (node : SyntaxNode) : Nat :=
  ((collectFnsNode node).map FunctionInfo.cyclomaticComplexity).headD 0

/-- C6: adding one more decision point (an `if` branch, inserted anywhere in
the function body) never decreases the cyclomatic complexity the Analyzer
reports for that function. -/
theorem complexity_monotone (name : String) (flag : Bool) (sp : Span)
    (cs : List SyntaxNode) (n : Nat) (s : SyntaxNode)
    (hk : isDecisionKind s.kind = true) :
    reportedCC (SyntaxNode.mk .funcDecl name flag sp cs) ≤
      reportedCC (SyntaxNode.mk .funcDecl name flag sp (insertAt n s cs)) := by
  have hcs : ∀ l : List SyntaxNode,
      reportedCC (SyntaxNode.mk .funcDecl name flag sp l) =
        1 + countDecisionsList l := by
    intro l
    simp [reportedCC, collectFnsNode]
  rw [hcs, hcs, countDecisionsList_insertAt]
  omega

theorem complexity_monotone_witness :
    isDecisionKind (SyntaxNode.mk .ifK "" false ⟨0, 0⟩ []).kind = true ∧
      reportedCC (SyntaxNode.mk .funcDecl "f" false ⟨0, 0⟩ []) ≤
        reportedCC (SyntaxNode.mk .funcDecl "f" false ⟨0, 0⟩
          (insertAt 0 (SyntaxNode.mk .ifK "" false ⟨0, 0⟩ []) [])) :=
  ⟨rfl, complexity_monotone "f" false ⟨0, 0⟩ [] 0
    (SyntaxNode.mk .ifK "" false ⟨0, 0⟩ []) rfl⟩

theorem neo4jCall_guard {α : Type} (client : Option Neo4jFrontendClient)
    (ready : Bool) (call : Neo4jFrontendClient → Except JsError α)
    (h : client = none ∨ ready = false) :
    neo4jCall client ready call = .error "Neo4j client not initialized" := by
  cases client with
  | none => rfl
  | some c =>
      rcases h with h | h
      · exact absurd h (by simp)
      · simp [neo4jCall, h]

/-- C10: every query method of useNeo4j fails with
"Neo4j client not initialized" whenever the client is absent or the hook
state is not initialized, without consulting the client. -/
theorem useNeo4j_guard (client : Option Neo4jFrontendClient) (ready : Bool)
    (h : client = none ∨ ready = false) :
    (∀ s r, useNeo4j.searchClasses client ready s r =
        .error "Neo4j client not initialized") ∧
    (∀ s r, useNeo4j.searchFunctions client ready s r =
        .error "Neo4j client not initialized") ∧
    (∀ c, useNeo4j.getClassDetails client ready c =
        .error "Neo4j client not initialized") ∧
    (∀ c l, useNeo4j.getCodePatterns client ready c l =
        .error "Neo4j client not initialized") ∧
    (∀ i, useNeo4j.validateImports client ready i =
        .error "Neo4j client not initialized") ∧
    (∀ f l, useNeo4j.getSimilarImplementations client ready f l =
        .error "Neo4j client not initialized") ∧
    (∀ q r l, useNeo4j.semanticCodeSearch client ready q r l =
        .error "Neo4j client not initialized") ∧
    (∀ f, useNeo4j.getCodeQualityMetrics client ready f =
        .error "Neo4j client not initialized") ∧
    (∀ m, useNeo4j.getDependencyGraph client ready m =
        .error "Neo4j client not initialized") ∧
    useNeo4j.getRepositories client ready =
        .error "Neo4j client not initialized" := by
  refine ⟨fun s r => ?_, fun s r => ?_, fun c => ?_, fun c l => ?_,
    fun i => ?_, fun f l => ?_, fun q r l => ?_, fun f => ?_, fun m => ?_, ?_⟩
  all_goals
    first
    | exact neo4jCall_guard client ready _ h

theorem useNeo4j_guard_witness :
    useNeo4j.searchClasses none true "Foo" none =
      .error "Neo4j client not initialized" :=
  (useNeo4j_guard none true (Or.inl rfl)).1 "Foo" none

/-- C9 counterexample: with an empty-string `requiredRole` (a given role
that JavaScript treats as falsy), an authenticated user lacking that role is
still shown the children, so "children are rendered iff ... hasRole
(requiredRole) is true" fails as stated. -/
theorem authGuard_children_iff_counterexample :
    authGuard ⟨true, false, fun _ => false⟩ (some "") false =
        GuardRender.childrenView ∧
      ¬((some "" : Option String) = none ∨
        (fun (_ : String) => false) "" = true) := by
  constructor
  · rfl
  · simp

/-- C9 (amended): AuthGuard renders its children iff the auth state is not
loading, the user is authenticated, and the requiredRole is absent, empty
(JavaScript-falsy), or held by the user; when not loading and not
authenticated it renders the LoginPage instead, so children are never shown
to an unauthenticated user. -/
theorem authGuard_renders (auth : AuthSnapshot) (requiredRole : Option String)
    (hasFallback : Bool) :
    (authGuard auth requiredRole hasFallback = GuardRender.childrenView ↔
      (auth.isLoading = false ∧ auth.isAuthenticated = true ∧
        (roleTruthy requiredRole = false ∨
          auth.hasRole (requiredRole.getD "") = true))) ∧
    (auth.isLoading = false → auth.isAuthenticated = false →
      authGuard auth requiredRole hasFallback = GuardRender.loginPage) := by
  unfold authGuard
  rcases auth with ⟨hauth, hload, hrole⟩
  cases hload <;> cases hauth <;>
    cases htruthy : roleTruthy requiredRole <;>
      cases hhas : hrole (requiredRole.getD "") <;>
        cases hasFallback <;> simp_all

theorem authGuard_renders_witness :
    authGuard ⟨false, false, fun _ => false⟩ none false =
      GuardRender.loginPage :=
  (authGuard_renders ⟨false, false, fun _ => false⟩ none false).2 rfl rfl

def demoSU : SourceUnit :=
  { filePath := "a.ts",
    text := "import \x7bb\x7d from \"./x\"; import \x7ba\x7d from \"react\"; const y = a;",
    dialect := .ts }

def emptyAnalysis : AnalysisResult :=
  { metrics := emptyMetrics, functions := [], components := [], imports := [],
    exports := [], patterns := [] }

def fallbackPlan : RefactoringPlan :=
  { operationKind := .organizeImports, targetSpans := [], proposedText := "",
    affectedSpans := [], isDryRun := true }

def goOpts : RefactorOptions := { dryRun := false }

def dryOpts : RefactorOptions := { dryRun := true }

def demoPlan : RefactoringPlan :=
  match refactor demoSU emptyAnalysis .organizeImports goOpts with
  | .ok p => p
  | .error _ => fallbackPlan

def demoDryPlan : RefactoringPlan :=
  match refactor demoSU emptyAnalysis .organizeImports dryOpts with
  | .ok p => p
  | .error _ => fallbackPlan

/-- C1: if `refactor` returns success then the proposed text re-parses under
the source's dialect; and whenever the transform's output fails to re-parse,
`refactor` fails with `RefactorError{reason:"unsafe-transform"}` (the edit
is discarded, never returned). -/
theorem refactor_safety :
    (∀ (su : SourceUnit) (ar : AnalysisResult) (op : OperationKind)
        (opts : RefactorOptions) (plan : RefactoringPlan),
      refactor su ar op opts = .ok plan → opts.dryRun = false →
        isOkE (parse plan.proposedText su.dialect) = true) ∧
    (∀ (su : SourceUnit) (ar : AnalysisResult) (op : OperationKind)
        (opts : RefactorOptions) (ast : SyntaxNode) (newText : String)
        (affected : List Span) (e : ParseError),
      parse su.text su.dialect = .ok ast →
      applyOperation su ast op opts = .ok (newText, affected) →
      parse newText su.dialect = .error e →
        refactor su ar op opts = .error ⟨"unsafe-transform"⟩) := by
  constructor
  · intro su ar op opts plan h _
    unfold refactor at h
    split at h
    · exact Except.noConfusion h
    · split at h
      · exact Except.noConfusion h
      · split at h
        · exact Except.noConfusion h
        · cases h
          next hre => simp [isOkE, hre]
  · intro su ar op opts ast newText affected e h1 h2 h3
    unfold refactor
    rw [h1]
    dsimp only
    rw [h2]
    dsimp only
    rw [h3]

theorem refactor_safety_witness :
    refactor demoSU emptyAnalysis .organizeImports goOpts = .ok demoPlan ∧
      goOpts.dryRun = false ∧
      isOkE (parse demoPlan.proposedText demoSU.dialect) = true :=
  ⟨rfl, rfl,
    refactor_safety.1 demoSU emptyAnalysis .organizeImports goOpts demoPlan
      rfl rfl⟩

/-- C4: a dry-run refactor leaves the SourceUnit text unchanged byte for
byte — the returned plan carries the proposal, and applying a dry-run plan
returns the original text. -/
theorem dryrun_preserves_source (su : SourceUnit) (ar : AnalysisResult)
    (op : OperationKind) (opts : RefactorOptions) (plan : RefactoringPlan)
    (hdry : opts.dryRun = true) (h : refactor su ar op opts = .ok plan) :
    plan.isDryRun = true ∧ (applyRefactoringPlan su plan).text = su.text := by
  unfold refactor at h
  split at h
  · exact Except.noConfusion h
  · split at h
    · exact Except.noConfusion h
    · split at h
      · exact Except.noConfusion h
      · cases h
        constructor
        · exact hdry
        · simp [applyRefactoringPlan, hdry]

theorem dryrun_preserves_source_witness :
    demoDryPlan.isDryRun = true ∧
      (applyRefactoringPlan demoSU demoDryPlan).text = demoSU.text :=
  dryrun_preserves_source demoSU emptyAnalysis .organizeImports dryOpts
    demoDryPlan rfl rfl

theorem dedupAux_nodup (l : List OptimizationSuggestion) :
    ∀ acc : List OptimizationSuggestion, (acc.map suggKey).Nodup →
      ((l.foldl
          (fun acc s =>
            if acc.any (fun t => suggKey t = suggKey s) then acc
            else acc ++ [s])
          acc).map suggKey).Nodup := by
  induction l with
  | nil => intro acc h; simpa using h
  | cons s l ih =>
      intro acc h
      simp only [List.foldl_cons]
      by_cases hs : acc.any (fun t => suggKey t = suggKey s) = true
      · rw [if_pos hs]; exact ih acc h
      · rw [if_neg hs]
        apply ih
        rw [List.map_append]
        refine List.Nodup.append h (by simp) ?_
        intro x hx hx'
        simp only [List.map_cons, List.map_nil, List.mem_singleton] at hx'
        subst hx'
        rcases List.mem_map.mp hx with ⟨t, ht, ht'⟩
        exact hs (List.any_eq_true.mpr ⟨t, ht, by simp [ht']⟩)

theorem nodup_key_filter (k : SuggestionKind × Span) :
    ∀ l : List OptimizationSuggestion, (l.map suggKey).Nodup →
      (l.filter fun s => suggKey s = k).length ≤ 1 := by
  intro l
  induction l with
  | nil => intro _; simp
  | cons a l ih =>
      intro h
      simp only [List.map_cons, List.nodup_cons] at h
      by_cases ha : suggKey a = k
      · have hnil : (l.filter fun s => suggKey s = k) = [] := by
          apply List.filter_eq_nil_iff.mpr
          intro t ht
          simp only [decide_eq_true_eq]
          intro hkt
          exact h.1 (List.mem_map.mpr ⟨t, ht, by rw [hkt, ha]⟩)
        simp [List.filter_cons, ha, hnil]
      · simpa [List.filter_cons, ha] using ih h.2

/-- C7: `optimize` never returns two suggestions with the same
(kind, targetSpan) pair; in particular at most one memoization suggestion is
produced per component span per analysis. -/
theorem optimize_no_duplicates (ar : AnalysisResult) :
    ((optimize ar).map suggKey).Nodup ∧
      ∀ k : SuggestionKind × Span,
        ((optimize ar).filter fun s => suggKey s = k).length ≤ 1 := by
  have hd : ((dedupSuggs (rawSuggestions ar)).map suggKey).Nodup :=
    dedupAux_nodup _ [] (by simp)
  have hperm : List.Perm (optimize ar) (dedupSuggs (rawSuggestions ar)) :=
    List.perm_insertionSort _ _
  have h1 : ((optimize ar).map suggKey).Nodup :=
    ((hperm.map suggKey).nodup_iff).mpr hd
  exact ⟨h1, fun k => nodup_key_filter k _ h1⟩

theorem list_map_fix {α : Type} (f : α → α) :
    ∀ l : List α, (∀ x ∈ l, f x = x) → l.map f = l := by
  intro l
  induction l with
  | nil => intro _; rfl
  | cons a l ih =>
      intro h
      simp only [List.map_cons, h a (by simp)]
      rw [ih fun x hx => h x (by simp [hx])]

/-- C8: two concurrent requests for the same (filePath, content) issued
before the first completes each produce no early output, and at completion
both callers receive the same AnalysisResult value while the Analyzer's
core logic has executed exactly once. -/
theorem service_dedups (st : ServiceState) (c1 c2 : Nat) (fp content : String)
    (h1 : lookupCache (fp, contentHash content) st.cache = none)
    (h2 : lookupWaiters (fp, contentHash content) st.inflight = none) :
    (svcRun st [SvcEvent.request c1 fp content,
        SvcEvent.request c2 fp content, SvcEvent.complete fp content]).2 =
      [(c1, analyzeContent fp content), (c2, analyzeContent fp content)] ∧
    (svcRun st [SvcEvent.request c1 fp content,
        SvcEvent.request c2 fp content,
        SvcEvent.complete fp content]).1.parseCount = st.parseCount + 1 := by
  have hfind : st.inflight.find?
      (fun p => p.1 = (fp, contentHash content)) = none := by
    rcases hf : st.inflight.find?
        (fun p => p.1 = (fp, contentHash content)) with _ | v
    · exact hf
    · rw [lookupWaiters, hf] at h2
      simp at h2
  have hne : ∀ p ∈ st.inflight, p.1 ≠ (fp, contentHash content) := by
    intro p hp
    have := List.find?_eq_none.mp hfind p hp
    simpa using this
  have hmap : updateWaiters (fp, contentHash content) ([c1] ++ [c2])
      st.inflight = st.inflight := by
    apply list_map_fix
    intro p hp
    simp [hne p hp]
  have hrem : removeKey (fp, contentHash content) st.inflight = st.inflight := by
    apply List.filter_eq_self.mpr
    intro p hp
    simp [hne p hp]
  have s1 : svcStep st (SvcEvent.request c1 fp content) =
      ({ st with inflight := ((fp, contentHash content), [c1]) :: st.inflight,
                 parseCount := st.parseCount + 1 }, []) := by
    simp only [svcStep, h1, h2]
  have s2 : svcStep
      { st with inflight := ((fp, contentHash content), [c1]) :: st.inflight,
                parseCount := st.parseCount + 1 }
      (SvcEvent.request c2 fp content) =
      ({ st with inflight := ((fp, contentHash content), [c1, c2]) :: st.inflight,
                 parseCount := st.parseCount + 1 }, []) := by
    simp only [svcStep, h1]
    rw [show lookupWaiters (fp, contentHash content)
        (((fp, contentHash content), [c1]) :: st.inflight) = some [c1] by
      simp [lookupWaiters, List.find?]]
    simp only [updateWaiters, List.map_cons]
    rw [show st.inflight.map (fun p =>
        if p.1 = (fp, contentHash content)
        then ((fp, contentHash content), [c1] ++ [c2]) else p) = st.inflight from
      list_map_fix _ _ (fun p hp => by simp [hne p hp])]
    simp
  have hrem2 : removeKey (fp, contentHash content)
      (((fp, contentHash content), [c1, c2]) :: st.inflight) = st.inflight := by
    unfold removeKey
    rw [List.filter_cons_of_neg (by simp)]
    exact List.filter_eq_self.mpr fun p hp => by simp [hne p hp]
  have s3 : svcStep
      { st with inflight := ((fp, contentHash content), [c1, c2]) :: st.inflight,
                parseCount := st.parseCount + 1 }
      (SvcEvent.complete fp content) =
      ({ cache := match analyzeContent fp content with
                  | .ok r => ((fp, contentHash content), r) :: st.cache
                  | .error _ => st.cache,
         inflight := st.inflight,
         parseCount := st.parseCount + 1 },
       [(c1, analyzeContent fp content), (c2, analyzeContent fp content)]) := by
    simp only [svcStep]
    rw [show lookupWaiters (fp, contentHash content)
        (((fp, contentHash content), [c1, c2]) :: st.inflight) = some [c1, c2] by
      simp [lookupWaiters, List.find?]]
    rw [hrem2]
    simp
  simp only [svcRun, s1, s2, s3]
  simp

def svcDemoContent : String := "const x=1;"

theorem service_dedups_witness :
    (svcRun ⟨[], [], 0⟩ [SvcEvent.request 1 "a.ts" svcDemoContent,
        SvcEvent.request 2 "a.ts" svcDemoContent,
        SvcEvent.complete "a.ts" svcDemoContent]).2 =
      [(1, analyzeContent "a.ts" svcDemoContent),
       (2, analyzeContent "a.ts" svcDemoContent)] ∧
    (svcRun ⟨[], [], 0⟩ [SvcEvent.request 1 "a.ts" svcDemoContent,
        SvcEvent.request 2 "a.ts" svcDemoContent,
        SvcEvent.complete "a.ts" svcDemoContent]).1.parseCount = 0 + 1 :=
  service_dedups ⟨[], [], 0⟩ 1 2 "a.ts" svcDemoContent rfl rfl

end IgnTools
